import Mathlib

/-!
Verification development for `examples/ofa/pretrain.py`, a training-launcher
script for a graph-neural-network pretraining pipeline.  The script is
sequential configuration assembly: it merges YAML/CLI configuration, builds a
task constructor and a graph model, assembles an evaluation kit, and hands
everything to an external training driver.  We embed its decision logic
shallowly: pure dispatch code becomes Lean functions and the fallible parts
(Python `IndexError` on `val_state[0]` / `test_state[0]`) return `Option`.
-/

namespace Pretrain

/-- An evaluation split descriptor, as produced by the task constructor and
consumed in `main` (lines 124-152 of `pretrain.py`): a state name
(`dt.state_name`), a metric-kind string (`dt.metric`), a class count
(`dt.classes`) and an evaluation callback reference
(`dt.meta_data["eval_func"]`, kept abstract as a name). -/
structure SplitDesc where
  state_name : String
  metric : String
  classes : Nat
  eval_func : String
  deriving DecidableEq, Repr

/-- The scorer instances the metric-kit builder can create
(lines 133-140 of `pretrain.py`): `Accuracy(task="multiclass", num_classes=...)`,
`AUROC(task="binary")`, `MultiApr(num_labels=...)`, `MultiAuc(num_labels=...)`. -/
inductive Scorer where
  | accuracyMulticlass (num_classes : Nat)
  | aurocBinary
  | multiApr (num_labels : Nat)
  | multiAuc (num_labels : Nat)
  deriving DecidableEq, Repr

/-- The `if dt.metric == ... elif ...` chain of lines 133-140: the scorer that
one loop iteration appends for descriptor `dt`, or `none` if the metric kind
matches no branch (in which case the Python loop appends nothing). -/
def scorerFor (dt : SplitDesc) : Option Scorer :=
  if dt.metric = "acc" then some (Scorer.accuracyMulticlass dt.classes)
  else if dt.metric = "auc" then some Scorer.aurocBinary
  else if dt.metric = "apr" then some (Scorer.multiApr dt.classes)
  else if dt.metric = "aucmulti" then some (Scorer.multiAuc dt.classes)
  else none

/-- The `evlter` list built by the `for dt in eval_data` loop of
lines 131-140: starting from `[]`, each iteration appends the scorer selected
by the `if/elif` chain, or nothing when no branch matches. -/
def buildEvlter (eval_data : List SplitDesc) : List Scorer :=
  eval_data.filterMap scorerFor

/-- Whether a metric-kind string is one of the four values recognised by the
dispatch chain of lines 133-140. -/
def knownMetric (m : String) : Bool :=
  m = "acc" || m = "auc" || m = "apr" || m = "aucmulti"

/-- The evaluation bundle assembled by the `EvalKit(...)` call of
lines 141-152, restricted to the fields computed by this script (the loss
object and the two function-valued arguments are opaque framework values and
carry no decision logic). -/
structure EvalKitRec where
  eval_metric : List String
  evlter : List Scorer
  eval_funcs : List String
  eval_state : List String
  val_monitor_state : String
  test_monitor_state : String
  deriving DecidableEq, Repr

/-- Lines 124-152 of `pretrain.py`: from the validation and test split lists,
compute `eval_data = val + test`, the state-name lists, the metric and
eval-func lists, run the scorer loop, and construct the `EvalKit` with
`val_monitor_state=val_state[0]` and `test_monitor_state=test_state[0]`.
The two Python subscripts raise `IndexError` when the corresponding list is
empty, so the construction is fallible: `none` models the uncaught
`IndexError` (no bundle is produced). -/
def buildMetrics (val test : List SplitDesc) : Option EvalKitRec :=
  let eval_data := val ++ test
  let val_state := val.map (fun dt => dt.state_name)
  let test_state := test.map (fun dt => dt.state_name)
  match val_state.head?, test_state.head? with
  | some v0, some t0 =>
      some
        { eval_metric := eval_data.map (fun dt => dt.metric)
          evlter := buildEvlter eval_data
          eval_funcs := eval_data.map (fun dt => dt.eval_func)
          eval_state := val_state ++ test_state
          val_monitor_state := v0
          test_monitor_state := t0 }
  | _, _ => none

/-- Line 183 of `pretrain.py`:
`strategy = "deepspeed_stage_2" if gpu_size > 1 else "auto"`. -/
def selectStrategy (gpu_size : Nat) : String :=
  if gpu_size > 1 then "deepspeed_stage_2" else "auto"

/-- The tail of `main` after the data module is built: the evaluation bundle
is assembled (lines 124-152) and only on success does control reach the
`lightning_fit(...)` call of lines 183-196, with the strategy chosen from the
accelerator count.  `none` models the run dying on the `IndexError` before
the training driver is invoked. -/
def mainEvalAndFit (val test : List SplitDesc) (gpu_size : Nat) :
    Option (EvalKitRec × String) :=
  match buildMetrics val test with
  | some kit => some (kit, selectStrategy gpu_size)
  | none => none

/-- The head variants of line 87: `BinGraphAttModel` and `BinGraphModel`
(imported from `models.model`). -/
inductive HeadVariant where
  | binGraphAttModel
  | binGraphModel
  deriving DecidableEq, Repr

/-- The parameters of the merged configuration that the model-assembly block
of `main` reads (lines 76-89): base embedding size `emb_dim`, optional
positional-encoding size `rwpe` (Python `None` is `none`), layer count,
dropout (passed through, never computed with), jump-knowledge mode `JK`, and
the language-model name. -/
structure Params where
  emb_dim : Nat
  rwpe : Option Nat
  num_layers : Nat
  dropout : Rat
  JK : String
  llm_name : String
  deriving DecidableEq, Repr

/-- Line 76 of `pretrain.py`:
`out_dim = params.emb_dim + (params.rwpe if params.rwpe is not None else 0)`. -/
def out_dim (emb_dim : Nat) (rwpe : Option Nat) : Nat :=
  emb_dim + (match rwpe with | some r => r | none => 0)

/-- The model assembled by lines 76-89: the `PyGRGCNEdge` encoder arguments
(`num_layers`, the literal `5` edge types, `out_dim` twice, dropout, `JK`)
and the head chosen by `bin_model = BinGraphAttModel if params.JK == "none"
else BinGraphModel`, applied with `outdim=out_dim, task_dim=1,
add_rwpe=params.rwpe`. -/
structure AssembledModel where
  head : HeadVariant
  gnn_layers : Nat
  gnn_edge_types : Nat
  gnn_JK : String
  outdim : Nat
  task_dim : Nat
  add_rwpe : Option Nat
  llm_name : String
  deriving DecidableEq, Repr

/-- Lines 76-89 of `pretrain.py` as one assembly function. -/
def assembleModel (p : Params) : AssembledModel :=
  let od := out_dim p.emb_dim p.rwpe
  { head := if p.JK = "none" then HeadVariant.binGraphAttModel
            else HeadVariant.binGraphModel
    gnn_layers := p.num_layers
    gnn_edge_types := 5
    gnn_JK := p.JK
    outdim := od
    task_dim := 1
    add_rwpe := p.rwpe
    llm_name := p.llm_name }

/-- Lines 53-56 of `pretrain.py`: the task-names parameter is either a Python
string or some other value (a list is passed through unchanged, as would be
any non-string). -/
inductive TaskNamesParam (α : Type) where
  | ofString (s : String)
  | nonString (v : α)
  deriving DecidableEq, Repr

/-- Lines 53-56 of `pretrain.py`:
`task_names = [a.strip() for a in params.task_names.split(",")]` when the
parameter is a string, else the value unchanged.  Python `str.split(",")`
with an explicit separator is `String.splitOn`, and `str.strip()` is
`String.trim`. -/
def resolveTaskNames {α : Type} : TaskNamesParam α → String ⊕ α ⊕ List String
  | TaskNamesParam.ofString s =>
      Sum.inr (Sum.inr ((s.splitOn ",").map String.trim))
  | TaskNamesParam.nonString v => Sum.inr (Sum.inl v)

end Pretrain

namespace Pretrain

/-! ### Configuration merging (`__main__`, lines 211-226)

`combine_dict` and `merge_mod` are imported from `gp.utils.utils`, whose
source is not part of this file's tree; only their call sites here are.
They are therefore modelled from the spec. -/

/-- Python-dict lookup on an association-list model of a flat configuration
mapping: the first binding of the key, if any. -/
def lookupKey : List (String × String) → String → Option String
  | [], _ => none
  | (k, v) :: rest, key => if k = key then some v else lookupKey rest key

/-- Python-dict single-key update on the association-list model: replace the
first binding of the key if present, else append the binding at the end. -/
def setKey : List (String × String) → String → String → List (String × String)
  | [], k, v => [(k, v)]
  | (k0, v0) :: rest, k, v =>
      if k0 = k then (k, v) :: rest else (k0, v0) :: setKey rest k v

/-- Fold a source of key/value pairs into an accumulated mapping, later pairs
overwriting earlier bindings of the same key. -/
def applySource (m : List (String × String)) (src : List (String × String)) :
    List (String × String) :=
  src.foldl (fun acc kv => setKey acc kv.1 kv.2) m

/-- Modelled from the spec: `combine_dict` (from `gp.utils.utils`, source not
in the tree) merges the base configuration file with the optional override
file "key-by-key with later sources taking precedence (last-write-wins)". -/
def combine_dict (base over : List (String × String)) :
    List (String × String) :=
  applySource base over

/-- Modelled from the spec: `merge_mod` (from `gp.utils.utils`, source not in
the tree) applies the CLI `key=value` pairs on top of the merged file
configuration, later sources taking precedence. -/
def merge_mod (m : List (String × String)) (opts : List (String × String)) :
    List (String × String) :=
  applySource m opts

/-- Lines 225-226 of `pretrain.py`:
`mod_params = combine_dict(*configs)` (base file then optional override
file), then `mod_params = merge_mod(mod_params, params.opts)`. -/
def mergedParams (base over cli : List (String × String)) :
    List (String × String) :=
  merge_mod (combine_dict base over) cli

/-- The binding a source contributes for a key when that source's own later
entries win: the last occurrence of the key in the source list. -/
def lookupKeyLast (src : List (String × String)) (key : String) :
    Option String :=
  lookupKey src.reverse key

/-! ### Execution order (`__main__` lines 210-238 and `main` lines 40-119)

The script is straight-line code; its statement order is embedded as a
trace of labelled steps. -/

/-- The labelled steps of the script, in the vocabulary of the claims:
configuration handling, the global-seed side effect (`set_random_seed`,
line 230), the construction steps inside `main` (text encoder line 46, task
constructor line 58, graph encoder line 78, wrapped model line 88, data
module line 117), evaluation-kit assembly and the fit call. -/
inductive MainStep where
  | loadConfigs
  | combineConfigs
  | mergeCliOpts
  | setupExp
  | setSeed
  | buildSentenceEncoder
  | buildTaskConstructor
  | buildGraphEncoder
  | buildWrappedModel
  | buildDataModule
  | buildEvalKit
  | runFit
  deriving DecidableEq, Repr

/-- The statement order of `pretrain.py`: `__main__` parses and merges the
configuration (lines 211-227), seeds the process-wide generator (line 230),
then calls `main` (line 238), which builds the encoder, task constructor,
graph encoder, wrapped model and data module (lines 46-119), assembles the
evaluation kit (lines 124-152) and invokes the training driver
(lines 184-196). -/
def mainTrace : List MainStep :=
  [MainStep.loadConfigs, MainStep.combineConfigs, MainStep.mergeCliOpts,
   MainStep.setupExp, MainStep.setSeed, MainStep.buildSentenceEncoder,
   MainStep.buildTaskConstructor, MainStep.buildGraphEncoder,
   MainStep.buildWrappedModel, MainStep.buildDataModule,
   MainStep.buildEvalKit, MainStep.runFit]

/-- The steps the reproducibility contract protects: model and dataset
construction (text encoder, task constructor, graph encoder, wrapped model,
data module). -/
def constructionStep : MainStep → Bool
  | MainStep.buildSentenceEncoder => true
  | MainStep.buildTaskConstructor => true
  | MainStep.buildGraphEncoder => true
  | MainStep.buildWrappedModel => true
  | MainStep.buildDataModule => true
  | _ => false

end Pretrain

namespace Pretrain

/-! ### Helper lemmas -/

theorem lookupKey_append (a b : List (String × String)) (key : String) :
    lookupKey (a ++ b) key =
      Option.orElse (lookupKey a key) (fun _ => lookupKey b key) := by
  induction a with
  | nil => simp [lookupKey, Option.orElse]
  | cons kv rest ih =>
      by_cases h : kv.1 = key
      · simp [lookupKey, h, Option.orElse]
      · simp [lookupKey, h, ih]

theorem lookupKey_setKey (m : List (String × String)) (k v key : String) :
    lookupKey (setKey m k v) key =
      if k = key then some v else lookupKey m key := by
  induction m with
  | nil => simp [setKey, lookupKey]
  | cons kv rest ih =>
      rcases kv with ⟨k0, v0⟩
      simp only [setKey]
      by_cases h : k0 = k
      · simp only [if_pos h, lookupKey]
        by_cases hk : k = key
        · simp [hk]
        · have hk0 : ¬ k0 = key := by rw [h]; exact hk
          simp [hk, hk0]
      · simp only [if_neg h, lookupKey]
        by_cases hk0 : k0 = key
        · have hkk : ¬ k = key := fun he => h (hk0.trans he.symm)
          simp [hk0, hkk]
        · simp [hk0, ih]

theorem lookupKeyLast_cons (kv : String × String) (src : List (String × String))
    (key : String) :
    lookupKeyLast (kv :: src) key =
      Option.orElse (lookupKeyLast src key)
        (fun _ => if kv.1 = key then some kv.2 else none) := by
  simp [lookupKeyLast, List.reverse_cons, lookupKey_append, lookupKey]

theorem lookupKey_applySource (src : List (String × String))
    (m : List (String × String)) (key : String) :
    lookupKey (applySource m src) key =
      Option.orElse (lookupKeyLast src key) (fun _ => lookupKey m key) := by
  induction src generalizing m with
  | nil => simp [applySource, lookupKeyLast, lookupKey, Option.orElse]
  | cons kv rest ih =>
      have step : applySource m (kv :: rest) =
          applySource (setKey m kv.1 kv.2) rest := by
        simp [applySource, List.foldl_cons]
      rw [step, ih, lookupKeyLast_cons]
      cases hlast : lookupKeyLast rest key with
      | some v => simp [Option.orElse]
      | none =>
          by_cases h : kv.1 = key
          · simp [Option.orElse, lookupKey_setKey, h]
          · simp [Option.orElse, lookupKey_setKey, h]

theorem scorerFor_none_of_not_known (dt : SplitDesc)
    (h : knownMetric dt.metric = false) : scorerFor dt = none := by
  simp only [knownMetric, Bool.or_eq_false_iff, decide_eq_false_iff_not] at h
  obtain ⟨⟨⟨h1, h2⟩, h3⟩, h4⟩ := h
  simp [scorerFor, h1, h2, h3, h4]

theorem buildEvlter_length_le (eval_data : List SplitDesc) :
    (buildEvlter eval_data).length ≤ eval_data.length :=
  List.length_filterMap_le scorerFor eval_data

end Pretrain

namespace Pretrain

/-! ### Claim theorems -/

/-- C1: for every evaluation split descriptor whose metric kind is one of the
four known values, the scorer loop appends exactly one scorer of the matching
type ("acc" a multiclass accuracy scorer over the split's class count, "auc"
a binary AUROC scorer, "apr" a multi-label average-precision scorer over the
class count, "aucmulti" a multi-label AUROC scorer over the class count); and
when every split's metric kind is known, the scorer list's length equals the
number of evaluation splits. -/
theorem metric_kit_known_dispatch :
    (∀ (dt : SplitDesc) (rest : List SplitDesc),
      (dt.metric = "acc" →
        buildEvlter (dt :: rest) =
          Scorer.accuracyMulticlass dt.classes :: buildEvlter rest) ∧
      (dt.metric = "auc" →
        buildEvlter (dt :: rest) = Scorer.aurocBinary :: buildEvlter rest) ∧
      (dt.metric = "apr" →
        buildEvlter (dt :: rest) =
          Scorer.multiApr dt.classes :: buildEvlter rest) ∧
      (dt.metric = "aucmulti" →
        buildEvlter (dt :: rest) =
          Scorer.multiAuc dt.classes :: buildEvlter rest)) ∧
    (∀ eval_data : List SplitDesc,
      (∀ dt ∈ eval_data, knownMetric dt.metric = true) →
      (buildEvlter eval_data).length = eval_data.length) := by
  constructor
  · intro dt rest
    refine ⟨fun h => ?_, fun h => ?_, fun h => ?_, fun h => ?_⟩ <;>
      simp [buildEvlter, List.filterMap_cons, scorerFor, h]
  · intro eval_data h
    induction eval_data with
    | nil => rfl
    | cons dt rest ih =>
        have hdt : knownMetric dt.metric = true := h dt (by simp)
        have hrest := ih (fun d hd => h d (by simp [hd]))
        have hsome : ∃ s, scorerFor dt = some s := by
          simp only [knownMetric, Bool.or_eq_true, decide_eq_true_eq] at hdt
          rcases hdt with ((hm | hm) | hm) | hm
          · exact ⟨Scorer.accuracyMulticlass dt.classes, by simp [scorerFor, hm]⟩
          · exact ⟨Scorer.aurocBinary, by simp [scorerFor, hm]⟩
          · exact ⟨Scorer.multiApr dt.classes, by simp [scorerFor, hm]⟩
          · exact ⟨Scorer.multiAuc dt.classes, by simp [scorerFor, hm]⟩
        rcases hsome with ⟨s, hs⟩
        simp only [buildEvlter, List.filterMap_cons, hs, List.length_cons]
        simp only [buildEvlter] at hrest
        rw [hrest]

/-- Witness for C1 at concrete inputs: an "acc" split yields exactly the
multiclass accuracy scorer, and a two-split list with known metrics yields a
two-scorer list. -/
theorem metric_kit_known_dispatch_witness :
    buildEvlter [⟨"v0", "acc", 3, "f"⟩] = [Scorer.accuracyMulticlass 3] ∧
    (buildEvlter [⟨"v0", "acc", 3, "f"⟩, ⟨"t0", "auc", 2, "g"⟩]).length = 2 := by
  constructor
  · have h := (metric_kit_known_dispatch.1 ⟨"v0", "acc", 3, "f"⟩ []).1 rfl
    simpa using h
  · exact metric_kit_known_dispatch.2
      [⟨"v0", "acc", 3, "f"⟩, ⟨"t0", "auc", 2, "g"⟩] (by decide)

/-- C2: for a split descriptor whose metric kind is none of the four known
values, the dispatch selects no scorer and the loop iteration leaves the
scorer list unchanged (the function is total, so no error is raised at
dispatch time); consequently a split list containing such a descriptor yields
a scorer list strictly shorter than the split list. -/
theorem metric_kit_unknown_silent :
    (∀ (dt : SplitDesc) (rest : List SplitDesc),
      knownMetric dt.metric = false →
        scorerFor dt = none ∧ buildEvlter (dt :: rest) = buildEvlter rest) ∧
    (∀ eval_data : List SplitDesc,
      (∃ dt ∈ eval_data, knownMetric dt.metric = false) →
      (buildEvlter eval_data).length < eval_data.length) := by
  constructor
  · intro dt rest h
    have hs := scorerFor_none_of_not_known dt h
    exact ⟨hs, by simp [buildEvlter, List.filterMap_cons, hs]⟩
  · intro eval_data h
    induction eval_data with
    | nil => simp at h
    | cons dt rest ih =>
        rcases h with ⟨d, hd, hdm⟩
        rcases List.mem_cons.mp hd with rfl | hmem
        · have hs := scorerFor_none_of_not_known d hdm
          have hle := buildEvlter_length_le rest
          simp only [buildEvlter, List.filterMap_cons, hs]
          exact Nat.lt_succ_of_le hle
        · have hlt := ih ⟨d, hmem, hdm⟩
          cases hs : scorerFor dt with
          | none =>
              simp only [buildEvlter, List.filterMap_cons, hs]
              exact Nat.lt_succ_of_lt hlt
          | some s =>
              simp only [buildEvlter, List.filterMap_cons, hs,
                List.length_cons]
              exact Nat.succ_lt_succ hlt

/-- Witness for C2 at a concrete input: the unrecognized metric kind "f1"
yields no scorer, the loop is a no-op on that split, and the resulting
scorer list is shorter than the one-element split list. -/
theorem metric_kit_unknown_silent_witness :
    (scorerFor ⟨"v0", "f1", 3, "f"⟩ = none ∧
      buildEvlter [⟨"v0", "f1", 3, "f"⟩] = buildEvlter []) ∧
    (buildEvlter [⟨"v0", "f1", 3, "f"⟩]).length < 1 := by
  constructor
  · exact metric_kit_unknown_silent.1 ⟨"v0", "f1", 3, "f"⟩ [] (by decide)
  · exact metric_kit_unknown_silent.2 [⟨"v0", "f1", 3, "f"⟩]
      ⟨⟨"v0", "f1", 3, "f"⟩, by simp, by decide⟩

end Pretrain

namespace Pretrain

/-- C3: the head variant is chosen solely from the jump-knowledge-mode
parameter `JK`: the attention-based head (`BinGraphAttModel`) exactly when
`JK = "none"`, the standard head (`BinGraphModel`) for any other value; any
two parameter sets that agree on `JK` get the same head. -/
theorem head_variant_selection (p : Params) :
    ((assembleModel p).head = HeadVariant.binGraphAttModel ↔ p.JK = "none") ∧
    (p.JK ≠ "none" → (assembleModel p).head = HeadVariant.binGraphModel) ∧
    (∀ q : Params, q.JK = p.JK →
      (assembleModel q).head = (assembleModel p).head) := by
  refine ⟨?_, ?_, ?_⟩
  · by_cases h : p.JK = "none" <;> simp [assembleModel, h]
  · intro h
    simp [assembleModel, h]
  · intro q hq
    by_cases h : p.JK = "none"
    · simp [assembleModel, h, hq]
    · have hq2 : ¬ q.JK = "none" := by rw [hq]; exact h
      simp [assembleModel, h, hq2]

/-- Witness for C3 at concrete parameter sets: `JK = "none"` yields the
attention-based head, `JK = "sum"` yields the standard head. -/
theorem head_variant_selection_witness :
    (assembleModel ⟨128, some 8, 5, 0, "none", "ST"⟩).head =
      HeadVariant.binGraphAttModel ∧
    (assembleModel ⟨128, some 8, 5, 0, "sum", "ST"⟩).head =
      HeadVariant.binGraphModel := by
  constructor
  · exact (head_variant_selection ⟨128, some 8, 5, 0, "none", "ST"⟩).1.mpr rfl
  · exact (head_variant_selection ⟨128, some 8, 5, 0, "sum", "ST"⟩).2.1
      (by decide)

/-- C4: the model's output dimension is the base embedding size plus the
positional-encoding size when `rwpe` is set, and exactly the base embedding
size when `rwpe` is unset (`None`) or zero. -/
theorem output_dimension (p : Params) :
    (∀ r : Nat, p.rwpe = some r → (assembleModel p).outdim = p.emb_dim + r) ∧
    ((p.rwpe = none ∨ p.rwpe = some 0) →
      (assembleModel p).outdim = p.emb_dim) := by
  constructor
  · intro r hr
    simp [assembleModel, out_dim, hr]
  · rintro (h | h) <;> simp [assembleModel, out_dim, h]

/-- Witness for C4 at concrete parameter sets: `rwpe = some 8` gives
`128 + 8`, `rwpe = none` and `rwpe = some 0` give `128`. -/
theorem output_dimension_witness :
    (assembleModel ⟨128, some 8, 5, 0, "none", "ST"⟩).outdim = 136 ∧
    (assembleModel ⟨128, none, 5, 0, "none", "ST"⟩).outdim = 128 ∧
    (assembleModel ⟨128, some 0, 5, 0, "none", "ST"⟩).outdim = 128 := by
  refine ⟨?_, ?_, ?_⟩
  · exact (output_dimension ⟨128, some 8, 5, 0, "none", "ST"⟩).1 8 rfl
  · exact (output_dimension ⟨128, none, 5, 0, "none", "ST"⟩).2 (Or.inl rfl)
  · exact (output_dimension ⟨128, some 0, 5, 0, "none", "ST"⟩).2 (Or.inr rfl)

/-- C5: for non-empty validation and test split lists, the evaluation bundle
is produced and its designated validation monitor name is the state name of
the first validation split, its designated test monitor name the state name
of the first test split. -/
theorem monitor_states_first (v : SplitDesc) (vs : List SplitDesc)
    (t : SplitDesc) (ts : List SplitDesc) :
    ∃ kit : EvalKitRec, buildMetrics (v :: vs) (t :: ts) = some kit ∧
      kit.val_monitor_state = v.state_name ∧
      kit.test_monitor_state = t.state_name :=
  ⟨_, rfl, rfl, rfl⟩

/-- C6: the training-driver invocation selects the "deepspeed_stage_2"
distributed strategy exactly when more than one accelerator is available,
and the default "auto" strategy otherwise. -/
theorem strategy_by_gpu_count (gpu_size : Nat) :
    (selectStrategy gpu_size = "deepspeed_stage_2" ↔ 1 < gpu_size) ∧
    (¬ 1 < gpu_size → selectStrategy gpu_size = "auto") := by
  by_cases h : 1 < gpu_size <;> simp [selectStrategy, h]

/-- Witness for C6 at concrete accelerator counts: two accelerators select
the sharded strategy, one selects the default. -/
theorem strategy_by_gpu_count_witness :
    selectStrategy 2 = "deepspeed_stage_2" ∧ selectStrategy 1 = "auto" :=
  ⟨(strategy_by_gpu_count 2).1.mpr (by decide),
   (strategy_by_gpu_count 1).2 (by decide)⟩

/-- C9: when the validation split list or the test split list is empty,
evaluation-bundle construction aborts on the out-of-bounds read of the first
state name (modelled as `none`): no bundle is produced and control never
reaches the training-driver call. -/
theorem empty_split_aborts (val test : List SplitDesc) (gpu_size : Nat)
    (h : val = [] ∨ test = []) :
    buildMetrics val test = none ∧ mainEvalAndFit val test gpu_size = none := by
  have hb : buildMetrics val test = none := by
    rcases h with rfl | rfl <;> simp [buildMetrics]
  exact ⟨hb, by simp [mainEvalAndFit, hb]⟩

/-- Witness for C9 at a concrete input: an empty validation list with one
test split produces no bundle and no fit invocation. -/
theorem empty_split_aborts_witness :
    buildMetrics [] [⟨"t0", "acc", 2, "f"⟩] = none ∧
    mainEvalAndFit [] [⟨"t0", "acc", 2, "f"⟩] 1 = none :=
  empty_split_aborts [] [⟨"t0", "acc", 2, "f"⟩] 1 (Or.inl rfl)

end Pretrain

namespace Pretrain

/-- C7: the merged parameter set is produced key-by-key with later sources
taking precedence: the value bound to any key is the CLI's binding if the CLI
sets the key, else the override file's binding if it sets the key, else the
base file's binding; keys present in only one source are preserved.
(`combine_dict`/`merge_mod` are modelled from the spec, their source being
outside the tree.) -/
theorem config_merge_last_write_wins (base over cli : List (String × String))
    (key : String) :
    lookupKey (mergedParams base over cli) key =
      Option.orElse (lookupKeyLast cli key)
        (fun _ => Option.orElse (lookupKeyLast over key)
          (fun _ => lookupKey base key)) := by
  show lookupKey (applySource (applySource base over) cli) key = _
  rw [lookupKey_applySource, lookupKey_applySource]

/-- C8: in the script's statement order, the process-wide seed is set
(`set_random_seed`, line 230) strictly before every model or dataset
construction step (text encoder, task constructor, graph encoder, wrapped
model, data module) executes. -/
theorem seed_set_before_construction :
    ∃ i : Fin mainTrace.length, mainTrace.get i = MainStep.setSeed ∧
      ∀ j : Fin mainTrace.length,
        constructionStep (mainTrace.get j) = true → i < j := by
  decide

/-- C10: a string-valued task-names parameter is resolved by splitting on
commas and stripping surrounding whitespace from each piece, while a
non-string value is passed through to the task constructor unchanged. -/
theorem task_names_resolution (s : String) (v : List String) :
    resolveTaskNames (TaskNamesParam.ofString (α := List String) s) =
      Sum.inr (Sum.inr ((s.splitOn ",").map String.trim)) ∧
    resolveTaskNames (TaskNamesParam.nonString v) = Sum.inr (Sum.inl v) :=
  ⟨rfl, rfl⟩

end Pretrain
